import Mathlib

set_option maxRecDepth 100000

/-!
# Verification of the BikeRacerGame contract and its client reconciliation logic

Shallow embedding of the repository's on-chain game contract
(`contracts/RaceToken.sol`, contract `BikeRacerGame`) and of the reward /
mint / enumeration flows of the TypeScript client
(`src/services/CircleService.ts`, `src/context/GameContext.tsx`, and the
second service variant).

Conventions:
* addresses are `Nat` (0 is the null address; external callers are nonzero
  externally-controlled accounts);
* `uint256` values are `Nat` (Solidity 0.8 reverts on overflow, so every
  arithmetic step that succeeds on-chain agrees with `Nat` arithmetic);
* every external contract function is a state transformer returning
  `Except Err (ContractState × List Event)`; a revert is `.error e`, and the
  EVM's rollback is modelled by the caller keeping the pre-state (`runOp`);
* Solidity mappings are total functions with the zero-value default,
  updated with `Function.update`.
-/

namespace BikeRacer

/-- `enum BikeType { SPORTS, LADY, CHOPPER }`. -/
inductive BikeType where
  | SPORTS
  | LADY
  | CHOPPER
deriving DecidableEq, Repr

/-- `enum GameMode { PRACTICE, RANKED, DAILY_CHALLENGE }`. -/
inductive GameMode where
  | PRACTICE
  | RANKED
  | DAILY_CHALLENGE
deriving DecidableEq, Repr

/-- `struct BikeNFT` of the contract. -/
structure BikeNFT where
  bikeType : BikeType
  speed : Nat
  acceleration : Nat
  handling : Nat
  mintTime : Nat
  totalRaces : Nat
  totalWins : Nat
  name : String
deriving DecidableEq, Repr

/-- `struct GameSession` of the contract. -/
structure GameSession where
  player : Nat
  bikeTokenId : Nat
  score : Nat
  distance : Nat
  vehiclesDodged : Nat
  timestamp : Nat
  completed : Bool
  rewardsClaimed : Nat
  gameMode : GameMode
deriving DecidableEq, Repr

/-- `struct DailyChallenge` of the contract. -/
structure DailyChallenge where
  challengeDate : Nat
  targetScore : Nat
  rewardAmount : Nat
  active : Bool
deriving DecidableEq, Repr

/-- Solidity zero value of `BikeNFT` (mapping default). -/
def emptyBikeNFT : BikeNFT :=
  { bikeType := .SPORTS, speed := 0, acceleration := 0, handling := 0,
    mintTime := 0, totalRaces := 0, totalWins := 0, name := "" }

/-- Solidity zero value of `GameSession` (mapping default). -/
def emptyGameSession : GameSession :=
  { player := 0, bikeTokenId := 0, score := 0, distance := 0,
    vehiclesDodged := 0, timestamp := 0, completed := false,
    rewardsClaimed := 0, gameMode := .PRACTICE }

/-- Solidity zero value of `DailyChallenge` (mapping default). -/
def emptyDailyChallenge : DailyChallenge :=
  { challengeDate := 0, targetScore := 0, rewardAmount := 0, active := false }

/-- Full storage of the `BikeRacerGame` contract, plus the balances of the
two external ERC20 tokens it interacts with.  The game contract's own
holdings of USDC and RACE are kept in dedicated fields (its address is
distinct from every player account). -/
structure ContractState where
  usdcBalance : Nat → Nat
  usdcAllowance : Nat → Nat
  raceBalance : Nat → Nat
  contractRaceBalance : Nat
  contractUsdcBalance : Nat
  owners : Nat → Nat
  totalSupply : Nat
  tokenIdCounter : Nat
  bikeNFTs : Nat → BikeNFT
  gameSessions : Nat → GameSession
  playerSessions : Nat → List Nat
  ownedBikes : Nat → List Nat
  playerRewards : Nat → Nat
  dailyChallenges : Nat → DailyChallenge
  completedDailyChallenges : Nat → Nat → Bool
  challengeCompleted : Nat → Nat → Bool
  challengeBestScores : Nat → Nat → Nat
  nextSessionId : Nat
  totalPrizePool : Nat
  currentChallengeDate : Nat
  paused : Bool

/-- Revert reasons of the contract (the `require` messages). -/
inductive Err where
  | MintFeeTransferFailed
  | NonexistentToken
  | NotYourBike
  | EntryFeeTransferFailed
  | NoActiveDailyChallenge
  | AlreadyCompletedChallenge
  | NotYourSession
  | SessionAlreadyCompleted
  | NoRewardsToClaim
  | RewardTransferFailed
  | InsufficientBalance
  | CannotTransferToSelf
  | InvalidRecipient
  | EnforcedPause
  | InvalidReceiver
deriving DecidableEq, Repr

/-- The contract's events. -/
inductive Event where
  | BikeNFTMinted (player tokenId : Nat) (bikeType : BikeType) (name : String)
  | GameStarted (player sessionId bikeTokenId : Nat) (gameMode : GameMode)
  | GameCompleted (player sessionId score rewards : Nat) (gameMode : GameMode)
  | DailyChallengeCreated (challengeDate targetScore rewardAmount : Nat)
  | DailyChallengeCompleted (player challengeDate score reward : Nat)
  | TokensTransferred (srcAddr dstAddr amount : Nat)
  | RewardsClaimed (player amount : Nat)
deriving DecidableEq, Repr

/-- `RANKED_ENTRY_FEE = 5 * 10**6`. -/
def RANKED_ENTRY_FEE : Nat := 5 * 10 ^ 6

/-- `getCurrentDay() = block.timestamp / 86400`. -/
def getCurrentDay (timestamp : Nat) : Nat := timestamp / 86400

/-- `getBikeBaseStats` lookup table. -/
def getBikeBaseStats : BikeType → Nat × Nat × Nat
  | .SPORTS => (95, 85, 70)
  | .LADY => (70, 75, 90)
  | .CHOPPER => (80, 60, 85)

/-- `getBikeMintPrice` lookup table (USDC, 6 decimals). -/
def getBikeMintPrice : BikeType → Nat
  | .SPORTS => 1 * 10 ^ 6
  | .LADY => 3 * 10 ^ 6
  | .CHOPPER => 5 * 10 ^ 6

/-- `usdc.transferFrom(player, address(this), amount)`: moves `amount` from
the player to the game contract, consuming allowance; `none` when the ERC20
call fails (insufficient allowance or balance). -/
def usdcTransferFrom (st : ContractState) (player amount : Nat) :
    Option ContractState :=
  if st.usdcAllowance player < amount ∨ st.usdcBalance player < amount then
    none
  else
    some { st with
      usdcAllowance :=
        Function.update st.usdcAllowance player (st.usdcAllowance player - amount),
      usdcBalance :=
        Function.update st.usdcBalance player (st.usdcBalance player - amount),
      contractUsdcBalance := st.contractUsdcBalance + amount }

/-- `mintBike(BikeType _bikeType, string _bikeName)`. -/
def mintBike (st : ContractState) (sender : Nat) (ty : BikeType)
    (bikeName : String) (timestamp : Nat) :
    Except Err (ContractState × List Event) :=
  if st.paused then .error .EnforcedPause else
  match usdcTransferFrom st sender (getBikeMintPrice ty) with
  | none => .error .MintFeeTransferFailed
  | some st1 =>
    if sender = 0 then .error .InvalidReceiver else
    let tokenId := st1.tokenIdCounter
    let stats := getBikeBaseStats ty
    let st2 := { st1 with
      tokenIdCounter := tokenId + 1,
      bikeNFTs := Function.update st1.bikeNFTs tokenId
        { bikeType := ty, speed := stats.1, acceleration := stats.2.1,
          handling := stats.2.2, mintTime := timestamp, totalRaces := 0,
          totalWins := 0, name := bikeName },
      ownedBikes :=
        Function.update st1.ownedBikes sender (st1.ownedBikes sender ++ [tokenId]),
      owners := Function.update st1.owners tokenId sender,
      totalSupply := st1.totalSupply + 1 }
    .ok (st2, [.BikeNFTMinted sender tokenId ty bikeName])

/-- The fee-handling block of `startGame`: the Ranked entry fee escrow and
prize-pool contribution, or the DailyChallenge active/not-yet-completed
checks; Practice is free. -/
def startGameFee (st : ContractState) (sender : Nat) (gameMode : GameMode)
    (timestamp : Nat) : Except Err ContractState :=
  match gameMode with
  | .RANKED =>
    match usdcTransferFrom st sender RANKED_ENTRY_FEE with
    | none => .error .EntryFeeTransferFailed
    | some st1 =>
      .ok { st1 with
        totalPrizePool := st1.totalPrizePool + (RANKED_ENTRY_FEE * 80) / 100 }
  | .DAILY_CHALLENGE =>
    let today := getCurrentDay timestamp
    if ¬ (st.dailyChallenges today).active then .error .NoActiveDailyChallenge
    else if st.completedDailyChallenges sender today then
      .error .AlreadyCompletedChallenge
    else .ok st
  | .PRACTICE => .ok st

/-- `startGame(uint256 _bikeTokenId, GameMode _gameMode)`. -/
def startGame (st : ContractState) (sender bikeTokenId : Nat)
    (gameMode : GameMode) (timestamp : Nat) :
    Except Err (ContractState × List Event) :=
  if st.paused then .error .EnforcedPause else
  -- `ownerOf` reverts on a nonexistent token, then
  -- `require(ownerOf(_bikeTokenId) == msg.sender)`
  if st.owners bikeTokenId = 0 then .error .NonexistentToken else
  if st.owners bikeTokenId ≠ sender then .error .NotYourBike else
  match startGameFee st sender gameMode timestamp with
  | .error e => .error e
  | .ok st1 =>
    let sessionId := st1.nextSessionId
    let bike := st1.bikeNFTs bikeTokenId
    .ok ({ st1 with
        nextSessionId := sessionId + 1,
        gameSessions := Function.update st1.gameSessions sessionId
          { player := sender, bikeTokenId := bikeTokenId, score := 0,
            distance := 0, vehiclesDodged := 0, timestamp := timestamp,
            completed := false, rewardsClaimed := 0, gameMode := gameMode },
        playerSessions := Function.update st1.playerSessions sender
          (st1.playerSessions sender ++ [sessionId]),
        bikeNFTs := Function.update st1.bikeNFTs bikeTokenId
          { bike with totalRaces := bike.totalRaces + 1 } },
      [.GameStarted sender sessionId bikeTokenId gameMode])

/-- The performance part of `completeGame`'s reward computation:
`baseReward + bikeBonus + scoreBonus + distanceBonus + dodgeBonus`, before
any game-mode adjustment. -/
def sessionSubtotal (st : ContractState)
    (sessionId score distance vehiclesDodged : Nat) : Nat :=
  let session := st.gameSessions sessionId
  let bike := st.bikeNFTs session.bikeTokenId
  let baseReward := 10 * 10 ^ 18
  let bikeBonus := ((bike.speed + bike.acceleration + bike.handling) * 10 ^ 17) / 100
  let scoreBonus := (score / 100) * 10 ^ 18
  let distanceBonus := (distance / 1000) * 5 * 10 ^ 18
  let dodgeBonus := vehiclesDodged * 2 * 10 ^ 18
  baseReward + bikeBonus + scoreBonus + distanceBonus + dodgeBonus

/-- The guard of `completeGame`'s daily-challenge branch: the session is a
DailyChallenge one, `score >= dailyChallenges[today].targetScore`, and
`!completedDailyChallenges[msg.sender][today]`, where `today` is the day of
the completion-time `block.timestamp`. -/
def dailyGrantHappens (st : ContractState)
    (sender sessionId score timestamp : Nat) : Prop :=
  (st.gameSessions sessionId).gameMode = .DAILY_CHALLENGE ∧
  (st.dailyChallenges (getCurrentDay timestamp)).targetScore ≤ score ∧
  st.completedDailyChallenges sender (getCurrentDay timestamp) = false

instance (st : ContractState) (sender sessionId score timestamp : Nat) :
    Decidable (dailyGrantHappens st sender sessionId score timestamp) := by
  unfold dailyGrantHappens
  infer_instance

/-- `totalRewards` as computed by `completeGame`: the subtotal, plus the
day's challenge reward when the daily branch grants, halved (integer
division) in Practice mode, unchanged in Ranked mode. -/
def completeGameRewards (st : ContractState)
    (sender sessionId score distance vehiclesDodged timestamp : Nat) : Nat :=
  let subtotal := sessionSubtotal st sessionId score distance vehiclesDodged
  match (st.gameSessions sessionId).gameMode with
  | .DAILY_CHALLENGE =>
    if dailyGrantHappens st sender sessionId score timestamp then
      subtotal + (st.dailyChallenges (getCurrentDay timestamp)).rewardAmount
    else subtotal
  | .PRACTICE => subtotal / 2
  | .RANKED => subtotal

/-- The state and events produced by a successful `completeGame` call
(the code after the two `require`s): store the updated session with its
`rewardsClaimed`, set the three daily-challenge records when the daily
branch grants, credit the caller's reward ledger, and emit
`DailyChallengeCompleted` (on a grant) followed by `GameCompleted`. -/
def completeGameResult (st : ContractState)
    (sender sessionId score distance vehiclesDodged timestamp : Nat) :
    ContractState × List Event :=
  let session := st.gameSessions sessionId
  let today := getCurrentDay timestamp
  let totalRewards :=
    completeGameRewards st sender sessionId score distance vehiclesDodged timestamp
  let stD :=
    if dailyGrantHappens st sender sessionId score timestamp then
      { st with
        completedDailyChallenges := Function.update st.completedDailyChallenges
          sender (Function.update (st.completedDailyChallenges sender) today true),
        challengeCompleted := Function.update st.challengeCompleted
          today (Function.update (st.challengeCompleted today) sender true),
        challengeBestScores := Function.update st.challengeBestScores
          today (Function.update (st.challengeBestScores today) sender score) }
    else st
  let evs :=
    if dailyGrantHappens st sender sessionId score timestamp then
      [Event.DailyChallengeCompleted sender today score
        (st.dailyChallenges today).rewardAmount]
    else []
  ({ stD with
      gameSessions := Function.update stD.gameSessions sessionId
        { session with
          score := score, distance := distance,
          vehiclesDodged := vehiclesDodged, completed := true,
          rewardsClaimed := totalRewards },
      playerRewards := Function.update stD.playerRewards sender
        (stD.playerRewards sender + totalRewards) },
    evs ++ [.GameCompleted sender sessionId score totalRewards session.gameMode])

/-- `completeGame(uint256 sessionId, uint256 score, uint256 distance,
uint256 vehiclesDodged)`: `require(session.player == msg.sender)`,
`require(!session.completed)`, then the unconditional reward computation
and state update of `completeGameResult`. -/
def completeGame (st : ContractState)
    (sender sessionId score distance vehiclesDodged timestamp : Nat) :
    Except Err (ContractState × List Event) :=
  let session := st.gameSessions sessionId
  if session.player ≠ sender then .error .NotYourSession else
  if session.completed then .error .SessionAlreadyCompleted else
  .ok (completeGameResult st sender sessionId score distance vehiclesDodged timestamp)

/-- `claimRewards()`: zero the caller's ledger entry and transfer that many
real RACE tokens from the contract to the caller.  The OpenZeppelin ERC20
transfer reverts when the contract is under-funded, which makes the whole
call revert (`RewardTransferFailed`). -/
def claimRewards (st : ContractState) (sender : Nat) :
    Except Err (ContractState × List Event) :=
  let rewards := st.playerRewards sender
  if rewards = 0 then .error .NoRewardsToClaim else
  if st.contractRaceBalance < rewards then .error .RewardTransferFailed else
  .ok ({ st with
      playerRewards := Function.update st.playerRewards sender 0,
      contractRaceBalance := st.contractRaceBalance - rewards,
      raceBalance :=
        Function.update st.raceBalance sender (st.raceBalance sender + rewards) },
    [.RewardsClaimed sender rewards])

/-- `transferTokensToPlayer(address _to, uint256 _amount)`: ledger-internal
transfer of reward credits. -/
def transferTokensToPlayer (st : ContractState) (sender toAddr amount : Nat) :
    Except Err (ContractState × List Event) :=
  let senderBalance := st.playerRewards sender
  if senderBalance < amount then .error .InsufficientBalance else
  if toAddr = sender then .error .CannotTransferToSelf else
  if toAddr = 0 then .error .InvalidRecipient else
  let pr1 := Function.update st.playerRewards sender (senderBalance - amount)
  .ok ({ st with
      playerRewards := Function.update pr1 toAddr (pr1 toAddr + amount) },
    [.TokensTransferred sender toAddr amount])

/-- `_createDailyChallenge()` (internal). -/
def createDailyChallenge (st : ContractState) (timestamp : Nat) :
    ContractState × Event :=
  let today := getCurrentDay timestamp
  let targetScore := 500 + timestamp % 1000
  let rewardAmount := 50 * 10 ^ 18
  ({ st with
      dailyChallenges := Function.update st.dailyChallenges today
        { challengeDate := today, targetScore := targetScore,
          rewardAmount := rewardAmount, active := true } },
    .DailyChallengeCreated today targetScore rewardAmount)

/-- `updateDailyChallenge()`. -/
def updateDailyChallenge (st : ContractState) (timestamp : Nat) :
    Except Err (ContractState × List Event) :=
  let today := getCurrentDay timestamp
  if st.currentChallengeDate < today then
    let old := st.dailyChallenges st.currentChallengeDate
    let st1 := { st with
      dailyChallenges := Function.update st.dailyChallenges
        st.currentChallengeDate { old with active := false },
      currentChallengeDate := today }
    let created := createDailyChallenge st1 timestamp
    .ok (created.1, [created.2])
  else .ok (st, [])

/-- Contract deployment (the constructor): fresh storage, the given USDC
environment, `raceFunding` RACE tokens held by the contract to pay claims,
and the first daily challenge created at deployment time `t0`. -/
def initialState (t0 : Nat) (usdcBalance0 usdcAllowance0 : Nat → Nat)
    (raceFunding : Nat) : ContractState :=
  let base : ContractState := {
    usdcBalance := usdcBalance0, usdcAllowance := usdcAllowance0,
    raceBalance := fun _ => 0, contractRaceBalance := raceFunding,
    contractUsdcBalance := 0,
    owners := fun _ => 0, totalSupply := 0, tokenIdCounter := 0,
    bikeNFTs := fun _ => emptyBikeNFT,
    gameSessions := fun _ => emptyGameSession,
    playerSessions := fun _ => [], ownedBikes := fun _ => [],
    playerRewards := fun _ => 0,
    dailyChallenges := fun _ => emptyDailyChallenge,
    completedDailyChallenges := fun _ _ => false,
    challengeCompleted := fun _ _ => false,
    challengeBestScores := fun _ _ => 0,
    nextSessionId := 1, totalPrizePool := 0,
    currentChallengeDate := getCurrentDay t0, paused := false }
  (createDailyChallenge base t0).1

/-- One externally-submitted transaction against the contract. -/
inductive Op where
  | mintBike (sender : Nat) (ty : BikeType) (bikeName : String) (timestamp : Nat)
  | startGame (sender bikeTokenId : Nat) (gameMode : GameMode) (timestamp : Nat)
  | completeGame (sender sessionId score distance vehiclesDodged timestamp : Nat)
  | claimRewards (sender : Nat)
  | transferTokensToPlayer (sender toAddr amount : Nat)
  | updateDailyChallenge (timestamp : Nat)
deriving DecidableEq, Repr

/-- Dispatch an operation. -/
def applyOp (st : ContractState) : Op → Except Err (ContractState × List Event)
  | .mintBike sender ty bikeName timestamp => mintBike st sender ty bikeName timestamp
  | .startGame sender bikeTokenId gameMode timestamp =>
      startGame st sender bikeTokenId gameMode timestamp
  | .completeGame sender sessionId score distance vehiclesDodged timestamp =>
      completeGame st sender sessionId score distance vehiclesDodged timestamp
  | .claimRewards sender => claimRewards st sender
  | .transferTokensToPlayer sender toAddr amount =>
      transferTokensToPlayer st sender toAddr amount
  | .updateDailyChallenge timestamp => updateDailyChallenge st timestamp

/-- EVM semantics of one transaction: a reverted call leaves the state
unchanged and emits no events. -/
def runOp (st : ContractState) (op : Op) : ContractState × List Event :=
  match applyOp st op with
  | .ok r => r
  | .error _ => (st, [])

/-- Run a sequence of transactions, collecting all emitted events. -/
def runTrace (st : ContractState) : List Op → ContractState × List Event
  | [] => (st, [])
  | op :: ops =>
    let r := runOp st op
    let rest := runTrace r.1 ops
    (rest.1, r.2 ++ rest.2)

/-- Total reward token amount paid out by `RewardsClaimed` events. -/
def claimedOf : List Event → Nat
  | [] => 0
  | .RewardsClaimed _ amount :: evs => amount + claimedOf evs
  | _ :: evs => claimedOf evs

/-- Total reward amount computed by completions (`GameCompleted` events). -/
def computedOf : List Event → Nat
  | [] => 0
  | .GameCompleted _ _ _ rewards _ :: evs => rewards + computedOf evs
  | _ :: evs => computedOf evs

/-- Number of daily-challenge bonus grants for player `p` on day `d`
(`DailyChallengeCompleted` events). -/
def dailyGrantCount (p d : Nat) : List Event → Nat
  | [] => 0
  | .DailyChallengeCompleted q e _ _ :: evs =>
    (if q = p ∧ e = d then 1 else 0) + dailyGrantCount p d evs
  | _ :: evs => dailyGrantCount p d evs

/-- Addresses whose reward-ledger entry an operation may change. -/
def Op.touches : Op → List Nat
  | .completeGame sender _ _ _ _ _ => [sender]
  | .claimRewards sender => [sender]
  | .transferTokensToPlayer sender toAddr _ => [sender, toAddr]
  | _ => []

/-- Sum of the reward-ledger entries of the players in `A`. -/
def ledgerSum (st : ContractState) (A : Finset Nat) : Nat :=
  A.sum st.playerRewards

end BikeRacer

namespace RacerClient

open BikeRacer (BikeType GameMode)

/-- One contract call inside a relayed (gas-sponsored) user-operation
batch, as assembled by the TypeScript client.  Every listed call is
state-changing on chain. -/
inductive ClientCall where
  | approve (spender amount : Nat)
  | startGame (bikeTokenId : Nat) (gameMode : GameMode)
  | completeGame (sessionId score distance vehiclesDodged : Nat)
  | claimRewards
  | mintBike (ty : BikeType) (name : String)
deriving DecidableEq, Repr

/-- The completion flow of `src/services/CircleService.ts`
(`completeGame`): the sequence of relayed batches it submits — a single
batch holding only the `completeGame` call. -/
def circleServiceCompleteGameBatches (sessionId score distance vehiclesDodged : Nat) :
    List (List ClientCall) :=
  [[.completeGame sessionId score distance vehiclesDodged]]

/-- The completion flow of the second service variant
(`completeGameWithSession` in the unnamed source file): the sequence of
relayed batches it submits.  Inputs: the session id passed by the caller
(ignored by the flow), the performance metrics, the `bikeTokenId` argument,
the token-id list read back via `getPlayerBikes()`, and the value of
`nextSessionId` read after the first batch settles. -/
def completeGameWithSessionBatches (sessionId score distance vehiclesDodged
    bikeTokenId : Nat) (playerBikes : List Nat) (nextSessionIdAfterStart : Nat) :
    List (List ClientCall) :=
  let _ := sessionId  -- `_sessionId` is unused in the source
  let actualBikeTokenId :=
    if bikeTokenId > 0 then bikeTokenId
    else match playerBikes with | [] => 1 | b :: _ => b
  let actualSessionId := nextSessionIdAfterStart - 1
  [[.startGame actualBikeTokenId .PRACTICE],
   [.completeGame actualSessionId score distance vehiclesDodged, .claimRewards]]

/-- The result record returned by the client's transaction methods. -/
structure TransactionResult where
  success : Bool
  transactionHash : Option String := none
  error : Option String := none
  sessionId : Option Nat := none
  tokenId : Option Nat := none
deriving DecidableEq, Repr

/-- The error message `CircleService.mintBike` returns when the settlement
wait (`waitForUserOperationReceipt` raced against a 60s timer) times out. -/
def mintReceiptTimeoutMessage : String :=
  "Transaction was submitted but receipt confirmation timed out. The mint might still be processing. Please check your wallet or try refreshing the page in a few moments."

/-- The `TransactionResult` that `CircleService.mintBike` returns on a
settlement-wait timeout (the `receiptError` branch). -/
def mintBikeReceiptTimeoutResult (hash : String) : TransactionResult :=
  { success := false, transactionHash := some hash,
    error := some mintReceiptTimeoutMessage }

/-- `charsStartWith s pat`: does `s` start with `pat`? -/
def charsStartWith : List Char → List Char → Bool
  | _, [] => true
  | [], _ :: _ => false
  | c :: cs, p :: ps => c == p && charsStartWith cs ps

/-- `charsContains s pat`: does `s` contain `pat` as a contiguous run? -/
def charsContains : List Char → List Char → Bool
  | [], pat => pat.isEmpty
  | c :: cs, pat => charsStartWith (c :: cs) pat || charsContains cs pat

/-- JavaScript `s.includes(pat)`. -/
def jsIncludes (s pat : String) : Bool :=
  charsContains s.toList pat.toList

/-- The observable effects of `GameContext.mintBike`'s handling of a
`CircleService.mintBike` result: whether the category is optimistically
marked owned, which delayed on-chain re-checks (in milliseconds) are
scheduled, whether the mint batch is resubmitted, and the error state set.
Mirrors the success branch (mark owned, verify after 2000ms), the branch
taken when the error text contains "timeout" (10000ms re-check, then
throw), and the plain failure branch (throw). -/
structure MintHandlerEffects where
  markOwnedImmediately : Bool
  scheduledRecheckDelaysMs : List Nat
  resubmitsMintBatch : Bool
  errorSet : Option String
deriving DecidableEq, Repr

/-- `GameContext.mintBike`'s post-processing of the service result. -/
def gameContextMintHandler (result : TransactionResult) : MintHandlerEffects :=
  if result.success then
    { markOwnedImmediately := true, scheduledRecheckDelaysMs := [2000],
      resubmitsMintBatch := false, errorSet := none }
  else if (match result.error with
           | some e => jsIncludes e "timeout"
           | none => false) then
    { markOwnedImmediately := false, scheduledRecheckDelaysMs := [10000],
      resubmitsMintBatch := false,
      errorSet := some (match result.error with | some e => e | none => "Failed to mint bike") }
  else
    { markOwnedImmediately := false, scheduledRecheckDelaysMs := [],
      resubmitsMintBatch := false,
      errorSet := some (match result.error with | some e => e | none => "Failed to mint bike") }

/-- `CircleService.getOwnedBikeTypesReliable`, abstracted over the outcome
of each attempt body: `fetch n` is what the `n`-th iteration of the
`while (retryCount < maxRetries)` loop produces — `.ok tys` when
`getPlayerBikes()` plus the per-token detail reads return the list `tys` of
owned bike types, `.error ()` when the attempt body throws.  On a throw the
source increments `retryCount`, gives up once it reaches 3, and otherwise
waits 1s and retries (retry attempts additionally sleep 2s after the token
read).  The fuel argument bounds the loop; 3 iterations are enough. -/
def getOwnedBikeTypesGo (fetch : Nat → Except Unit (List BikeType)) :
    Nat → Nat → List BikeType
  | _, 0 => []
  | retryCount, fuel + 1 =>
    if retryCount < 3 then
      match fetch retryCount with
      | .ok tys => tys
      | .error _ =>
        if retryCount + 1 ≥ 3 then []
        else getOwnedBikeTypesGo fetch (retryCount + 1) fuel
    else []

/-- Entry point of `getOwnedBikeTypesReliable`. -/
def getOwnedBikeTypesReliable (fetch : Nat → Except Unit (List BikeType)) :
    List BikeType :=
  getOwnedBikeTypesGo fetch 0 3

/-- The fallback ownership enumeration of `CircleService.getPlayerBikes`
(used when `tokenOfOwnerByIndex` is unavailable): scan token ids from 1 up
to `totalSupply` and keep those whose `ownerOf` read yields the player
(`none` models a token id for which `ownerOf` throws). -/
def getPlayerBikesFallbackScan (totalSupply : Nat) (ownerOf : Nat → Option Nat)
    (player : Nat) : List Nat :=
  (List.range' 1 totalSupply).filter fun tokenId =>
    match ownerOf tokenId with
    | some o => o == player
    | none => false

end RacerClient

open BikeRacer RacerClient

/-! ## Concrete scenarios used by the counterexamples and witnesses -/

/-- USDC environment: player 1 holds 10 USDC and has approved 10 USDC. -/
def demoUsdc : Nat → Nat := fun a => if a = 1 then 10 ^ 7 else 0

/-- A fresh deployment at time 0, funded with plenty of RACE. -/
def demoStart : ContractState := initialState 0 demoUsdc demoUsdc (10 ^ 24)

/-- Spec Scenario C: player 1 mints a Sports bike (stats 95/85/70), starts a
Practice session, and completes it with score 1000, distance 2000, 10
dodges. -/
def scenarioCOps : List Op :=
  [.mintBike 1 .SPORTS "Lightning" 0,
   .startGame 1 0 .PRACTICE 0,
   .completeGame 1 1 1000 2000 10 0]

/-- The contract state after Scenario C. -/
def scenarioCFinal : ContractState := (runTrace demoStart scenarioCOps).1

/-- Attempt outcomes where the first enumeration attempt succeeds with an
empty list and every later attempt would find a Sports bike. -/
def fetchEmptyThenSports : Nat → Except Unit (List BikeType) :=
  fun n => if n = 0 then .ok [] else .ok [.SPORTS]

/-- Player 1 with a pending DailyChallenge session (session 1) started on
day 0. -/
def dailyPendingState : ContractState :=
  (runTrace demoStart
    [.mintBike 1 .SPORTS "Lightning" 0,
     .startGame 1 0 .DAILY_CHALLENGE 0]).1

/-- Player 1 after a qualifying DailyChallenge completion on day 0 (day-0
target is 500): the day-0 completion mark is set. -/
def dailyDoneState : ContractState :=
  (runTrace demoStart
    [.mintBike 1 .SPORTS "Lightning" 0,
     .startGame 1 0 .DAILY_CHALLENGE 0,
     .completeGame 1 1 600 0 0 0]).1

/-- Scenario C followed by a credit transfer to player 2 and both players
claiming: exercises completions, transfers and claims together. -/
def conservationDemoOps : List Op :=
  [.mintBike 1 .SPORTS "Lightning" 0,
   .startGame 1 0 .PRACTICE 0,
   .completeGame 1 1 1000 2000 10 0,
   .transferTokensToPlayer 1 2 (10 ^ 18),
   .claimRewards 1,
   .claimRewards 2]

/-! ## Helper lemmas -/

/-- `usdcTransferFrom` only touches the USDC bookkeeping fields. -/
theorem usdcTransferFrom_preserves {st st1 : ContractState} {p amt : Nat}
    (h : usdcTransferFrom st p amt = some st1) :
    st1.tokenIdCounter = st.tokenIdCounter ∧ st1.owners = st.owners ∧
    st1.playerRewards = st.playerRewards ∧ st1.gameSessions = st.gameSessions ∧
    st1.completedDailyChallenges = st.completedDailyChallenges ∧
    st1.bikeNFTs = st.bikeNFTs ∧ st1.dailyChallenges = st.dailyChallenges ∧
    st1.contractRaceBalance = st.contractRaceBalance ∧
    st1.raceBalance = st.raceBalance ∧ st1.nextSessionId = st.nextSessionId ∧
    st1.paused = st.paused ∧ st1.totalSupply = st.totalSupply := by
  unfold usdcTransferFrom at h
  split at h
  · exact absurd h (by simp)
  · obtain rfl : _ = st1 := Option.some.inj h
    exact ⟨rfl, rfl, rfl, rfl, rfl, rfl, rfl, rfl, rfl, rfl, rfl, rfl⟩

/-! ## Claim theorems -/

/-- C1, counterexample: in the Scenario-C Practice completion (score 1000,
distance 2000, 10 dodges, stats 95/85/70) the contract credits
25.125 · 10^18 reward units, not the claimed 26 · 10^18: the asset bonus is
`(95+85+70) · 10^17 / 100` = 0.25 units, so the sum halved is 25.125. -/
theorem scenarioC_reward_not_26_units :
    scenarioCFinal.playerRewards 1 = 25125 * 10 ^ 15 ∧
    (25125 * 10 ^ 15 : Nat) ≠ 26 * 10 ^ 18 :=
  ⟨by decide, by decide⟩

/-- C1, amended: the Scenario-C Practice completion credits exactly
25.125 reward units (25125 · 10^15 in 18-decimal scale): base 10, asset
bonus `(95+85+70) · 10^17 / 100` = 0.25, score bonus 10, distance bonus 10,
dodge bonus 20 are summed first and the Practice halving with integer
division is applied to the sum afterwards. -/
theorem scenarioC_reward_25_125_units :
    scenarioCFinal.playerRewards 1 =
      (10 * 10 ^ 18 + ((95 + 85 + 70) * 10 ^ 17) / 100 + (1000 / 100) * 10 ^ 18 +
        (2000 / 1000) * 5 * 10 ^ 18 + 10 * 2 * 10 ^ 18) / 2 ∧
    scenarioCFinal.playerRewards 1 = 25125 * 10 ^ 15 :=
  ⟨by decide, by decide⟩

/-- C6, counterexample: the second service variant's completion flow does
not submit `[completeGame, claimRewards]` as one single batch: it submits
two batches, the first holding a state-changing `startGame` call, and the
`completeGame` call targets session `nextSessionId - 1` (here 4), not the
session (7) being completed.  The `CircleService.ts` variant submits a
single batch that contains no `claimRewards` call at all. -/
theorem completion_flow_not_single_batch :
    completeGameWithSessionBatches 7 100 200 3 0 [] 5 =
      [[.startGame 1 .PRACTICE], [.completeGame 4 100 200 3, .claimRewards]] ∧
    (completeGameWithSessionBatches 7 100 200 3 0 [] 5).length = 2 ∧
    [ClientCall.startGame 1 .PRACTICE] ∈ completeGameWithSessionBatches 7 100 200 3 0 [] 5 ∧
    (4 : Nat) ≠ 7 ∧
    circleServiceCompleteGameBatches 7 100 200 3 = [[.completeGame 7 100 200 3]] ∧
    ClientCall.claimRewards ∉ [ClientCall.completeGame 7 100 200 3] := by
  refine ⟨rfl, rfl, ?_, by decide, rfl, by decide⟩
  simp [completeGameWithSessionBatches]

/-- C6, amended: the second service variant's completion flow submits two
relayed batches: first a batch with a single state-changing `startGame`
call creating a fresh Practice session, then a batch holding both the
`completeGame` call — targeting the freshly created session
`nextSessionId - 1`, not the session id passed in, which the flow ignores —
and the `claimRewards` call; the `CircleService.ts` completion flow submits
one batch holding only the `completeGame` call for the given session and
never batches `claimRewards` with it. -/
theorem completion_flow_batch_structure
    (sessionId score distance vehiclesDodged bikeTokenId nextId : Nat)
    (playerBikes : List Nat) :
    (completeGameWithSessionBatches sessionId score distance vehiclesDodged
        bikeTokenId playerBikes nextId).length = 2 ∧
    (∃ bikeId, completeGameWithSessionBatches sessionId score distance
        vehiclesDodged bikeTokenId playerBikes nextId =
      [[.startGame bikeId .PRACTICE],
       [.completeGame (nextId - 1) score distance vehiclesDodged, .claimRewards]]) ∧
    (∀ sid2, completeGameWithSessionBatches sessionId score distance
        vehiclesDodged bikeTokenId playerBikes nextId =
      completeGameWithSessionBatches sid2 score distance vehiclesDodged
        bikeTokenId playerBikes nextId) ∧
    (circleServiceCompleteGameBatches sessionId score distance vehiclesDodged).length = 1 ∧
    (∀ batch ∈ circleServiceCompleteGameBatches sessionId score distance vehiclesDodged,
      ClientCall.claimRewards ∉ batch ∧
      ClientCall.completeGame sessionId score distance vehiclesDodged ∈ batch) := by
  refine ⟨rfl, ⟨_, rfl⟩, fun _ => rfl, rfl, ?_⟩
  intro batch hb
  simp only [circleServiceCompleteGameBatches, List.mem_singleton] at hb
  subst hb
  simp

/-- C6, amended, witness at concrete inputs. -/
theorem completion_flow_batch_structure_witness :
    [ClientCall.completeGame 9 1 2 3] ∈ circleServiceCompleteGameBatches 9 1 2 3 ∧
    ClientCall.claimRewards ∉ [ClientCall.completeGame 9 1 2 3] ∧
    ClientCall.completeGame 9 1 2 3 ∈ [ClientCall.completeGame 9 1 2 3] := by
  refine ⟨by decide, ?_⟩
  have h := (completion_flow_batch_structure 9 1 2 3 0 5 []).2.2.2.2
    [ClientCall.completeGame 9 1 2 3] (by decide)
  exact ⟨h.1, h.2⟩

/-- C7 (code bug): on a mint settlement-wait timeout the service returns
`success := false` with a message saying the receipt "timed out"; the
context's special timeout handling tests whether the error text contains
the substring "timeout", which that message does not, so the 10-second
delayed re-check is never scheduled and the outcome is handled as a plain
definite failure.  (No path resubmits the mint batch.) -/
theorem mint_timeout_no_recheck_scheduled :
    (mintBikeReceiptTimeoutResult "0xhash").success = false ∧
    jsIncludes mintReceiptTimeoutMessage "timed out" = true ∧
    jsIncludes mintReceiptTimeoutMessage "timeout" = false ∧
    gameContextMintHandler (mintBikeReceiptTimeoutResult "0xhash") =
      { markOwnedImmediately := false, scheduledRecheckDelaysMs := [],
        resubmitsMintBatch := false, errorSet := some mintReceiptTimeoutMessage } :=
  ⟨rfl, by decide, by decide, by decide⟩

/-- C8, counterexample: when the first enumeration attempt yields an empty
result (as right after a mint, before indexing catches up) the function
reports the empty set immediately — it does not retry, even though the
retry attempts would have found the freshly minted bike. -/
theorem owned_enumeration_empty_not_retried :
    getOwnedBikeTypesReliable fetchEmptyThenSports = [] ∧
    fetchEmptyThenSports 0 = .ok [] ∧
    fetchEmptyThenSports 1 = .ok [.SPORTS] ∧
    fetchEmptyThenSports 2 = .ok [.SPORTS] :=
  ⟨rfl, rfl, rfl, rfl⟩

/-- C8, amended: `getOwnedBikeTypesReliable` retries (up to 3 attempts in
total, waiting about 1s before each retry plus a fixed 2s sync delay inside
retry attempts) only when an attempt throws; any successful attempt — even
one yielding the empty set — is reported immediately, and only after three
thrown attempts does it give up and report the empty set. -/
theorem owned_enumeration_retries_on_error_only
    (fetch : Nat → Except Unit (List BikeType)) (tys : List BikeType) :
    (fetch 0 = .ok tys → getOwnedBikeTypesReliable fetch = tys) ∧
    (fetch 0 = .error () → fetch 1 = .ok tys →
      getOwnedBikeTypesReliable fetch = tys) ∧
    (fetch 0 = .error () → fetch 1 = .error () → fetch 2 = .error () →
      getOwnedBikeTypesReliable fetch = []) := by
  refine ⟨fun h0 => ?_, fun h0 h1 => ?_, fun h0 h1 h2 => ?_⟩
  · simp [getOwnedBikeTypesReliable, getOwnedBikeTypesGo, h0]
  · simp [getOwnedBikeTypesReliable, getOwnedBikeTypesGo, h0, h1]
  · simp [getOwnedBikeTypesReliable, getOwnedBikeTypesGo, h0, h1, h2]

/-- C8, amended, witness: a first attempt that succeeds is returned as is. -/
theorem owned_enumeration_retries_witness :
    getOwnedBikeTypesReliable (fun _ => .ok [.SPORTS]) = [.SPORTS] :=
  (owned_enumeration_retries_on_error_only (fun _ => .ok [.SPORTS]) [.SPORTS]).1 rfl

/-- C9: the fallback ownership scan iterates token ids 1..totalSupply, so
token id 0 is never in its result, even when the queried owner owns it;
yet `mintBike` assigns ids starting from the counter, which a fresh
deployment initialises to 0 — so the first bike ever minted has id 0. -/
theorem fallback_scan_never_contains_token_zero :
    (∀ (totalSupply : Nat) (ownerOf : Nat → Option Nat) (player : Nat),
      ownerOf 0 = some player →
      0 ∉ getPlayerBikesFallbackScan totalSupply ownerOf player) ∧
    (∀ st sender ty bikeName timestamp st2 evs,
      mintBike st sender ty bikeName timestamp = .ok (st2, evs) →
      evs = [.BikeNFTMinted sender st.tokenIdCounter ty bikeName] ∧
      st2.owners st.tokenIdCounter = sender ∧
      st2.tokenIdCounter = st.tokenIdCounter + 1) ∧
    (∀ t0 b a r, (initialState t0 b a r).tokenIdCounter = 0) := by
  refine ⟨?_, ?_, fun _ _ _ _ => rfl⟩
  · intro n ownerOf p _ hmem
    unfold getPlayerBikesFallbackScan at hmem
    have h0 := (List.mem_filter.mp hmem).1
    simp only [List.mem_range'_1] at h0
    omega
  · intro st sender ty bikeName timestamp st2 evs h
    unfold mintBike at h
    split at h
    · exact absurd h (by simp)
    split at h
    · exact absurd h (by simp)
    next st1 heq =>
      split at h
      · exact absurd h (by simp)
      simp only [Except.ok.injEq, Prod.mk.injEq] at h
      obtain ⟨hst, hevs⟩ := h
      obtain ⟨hc, ho, -⟩ := usdcTransferFrom_preserves heq
      subst hst
      subst hevs
      refine ⟨by rw [hc], ?_, by rw [hc]⟩
      rw [← hc]
      exact Function.update_same _ _ _
/-- Inversion for a successful `completeGame` call: it succeeds exactly
when the caller owns the session and it is not yet completed, and then
produces `completeGameResult`. -/
theorem completeGame_ok_iff {st : ContractState}
    {sender sessionId score distance vehiclesDodged timestamp : Nat}
    {p : ContractState × List Event} :
    completeGame st sender sessionId score distance vehiclesDodged timestamp = .ok p ↔
    (st.gameSessions sessionId).player = sender ∧
    (st.gameSessions sessionId).completed = false ∧
    p = completeGameResult st sender sessionId score distance vehiclesDodged timestamp := by
  unfold completeGame
  dsimp only
  split_ifs with h1 h2
  · simp [h1]
  · simp [h2]
  · push_neg at h1
    simp [h1, h2, eq_comm]

/-- The ledger update made by a successful completion. -/
theorem completeGameResult_playerRewards (st : ContractState)
    (sender sessionId score distance vehiclesDodged timestamp : Nat) :
    (completeGameResult st sender sessionId score distance vehiclesDodged timestamp).1.playerRewards =
      Function.update st.playerRewards sender (st.playerRewards sender +
        completeGameRewards st sender sessionId score distance vehiclesDodged timestamp) := by
  unfold completeGameResult
  by_cases hg : dailyGrantHappens st sender sessionId score timestamp <;> simp [hg]

/-- The events emitted by a successful completion. -/
theorem completeGameResult_events (st : ContractState)
    (sender sessionId score distance vehiclesDodged timestamp : Nat) :
    (completeGameResult st sender sessionId score distance vehiclesDodged timestamp).2 =
      (if dailyGrantHappens st sender sessionId score timestamp then
        [Event.DailyChallengeCompleted sender (getCurrentDay timestamp) score
          (st.dailyChallenges (getCurrentDay timestamp)).rewardAmount]
      else []) ++
      [Event.GameCompleted sender sessionId score
        (completeGameRewards st sender sessionId score distance vehiclesDodged timestamp)
        (st.gameSessions sessionId).gameMode] := by
  unfold completeGameResult
  by_cases hg : dailyGrantHappens st sender sessionId score timestamp <;> simp [hg]

/-- The session store update made by a successful completion. -/
theorem completeGameResult_gameSessions (st : ContractState)
    (sender sessionId score distance vehiclesDodged timestamp : Nat) :
    (completeGameResult st sender sessionId score distance vehiclesDodged timestamp).1.gameSessions =
      Function.update st.gameSessions sessionId
        { st.gameSessions sessionId with
          score := score, distance := distance,
          vehiclesDodged := vehiclesDodged, completed := true,
          rewardsClaimed :=
            completeGameRewards st sender sessionId score distance vehiclesDodged timestamp } := by
  unfold completeGameResult
  by_cases hg : dailyGrantHappens st sender sessionId score timestamp <;> simp [hg]

/-- The daily-completion marks after a successful completion, pointwise. -/
theorem completeGameResult_flags (st : ContractState)
    (sender sessionId score distance vehiclesDodged timestamp : Nat) (p d : Nat) :
    (completeGameResult st sender sessionId score distance vehiclesDodged timestamp).1.completedDailyChallenges p d =
      if dailyGrantHappens st sender sessionId score timestamp ∧
          p = sender ∧ d = getCurrentDay timestamp then true
      else st.completedDailyChallenges p d := by
  unfold completeGameResult
  by_cases hg : dailyGrantHappens st sender sessionId score timestamp
  · simp only [hg, if_pos, true_and]
    by_cases hp : p = sender
    · subst hp
      simp only [Function.update_same]
      by_cases hd : d = getCurrentDay timestamp
      · subst hd; simp
      · simp [hd, Function.update_noteq hd]
    · simp [hp, Function.update_noteq hp]
  · simp [hg]

/-- C2: for a positive ledger entry (and a funded contract) `claimRewards`
transfers exactly the pre-claim ledger balance of real RACE tokens to the
caller and zeroes the entry; a zero entry fails with the nothing-to-claim
error and changes nothing; and a failing token transfer reverts the whole
call, restoring the ledger entry. -/
theorem claimRewards_drains_exactly (st : ContractState) (sender : Nat) :
    (0 < st.playerRewards sender → st.playerRewards sender ≤ st.contractRaceBalance →
      ∃ st2 evs, claimRewards st sender = .ok (st2, evs) ∧
        st2.playerRewards sender = 0 ∧
        st2.raceBalance sender = st.raceBalance sender + st.playerRewards sender ∧
        st2.contractRaceBalance = st.contractRaceBalance - st.playerRewards sender ∧
        (∀ a, a ≠ sender → st2.playerRewards a = st.playerRewards a) ∧
        evs = [.RewardsClaimed sender (st.playerRewards sender)]) ∧
    (st.playerRewards sender = 0 →
      claimRewards st sender = .error .NoRewardsToClaim ∧
      runOp st (.claimRewards sender) = (st, [])) ∧
    (st.contractRaceBalance < st.playerRewards sender →
      claimRewards st sender = .error .RewardTransferFailed ∧
      runOp st (.claimRewards sender) = (st, [])) := by
  refine ⟨fun hpos hfund => ?_, fun hz => ?_, fun hlt => ?_⟩
  · have hne : ¬ st.playerRewards sender = 0 := by omega
    have hnl : ¬ st.contractRaceBalance < st.playerRewards sender := by omega
    have hca : claimRewards st sender = .ok
        ({ st with
            playerRewards := Function.update st.playerRewards sender 0,
            contractRaceBalance := st.contractRaceBalance - st.playerRewards sender,
            raceBalance := Function.update st.raceBalance sender
              (st.raceBalance sender + st.playerRewards sender) },
          [.RewardsClaimed sender (st.playerRewards sender)]) := by
      simp only [claimRewards]
      rw [if_neg hne, if_neg hnl]
    exact ⟨_, _, hca, Function.update_same _ _ _, Function.update_same _ _ _, rfl,
      fun a ha => Function.update_noteq ha _ _, rfl⟩
  · refine ⟨?_, ?_⟩
    · simp only [claimRewards]
      rw [if_pos hz]
    · simp [runOp, applyOp, claimRewards, hz]
  · have hne : ¬ st.playerRewards sender = 0 := by omega
    refine ⟨?_, ?_⟩
    · simp only [claimRewards]
      rw [if_neg hne, if_pos hlt]
    · simp [runOp, applyOp, claimRewards, hne, hlt]

/-- C2, witness: after Scenario C player 1 holds 25.125 units and the
contract is funded, so the claim succeeds, drains exactly, and zeroes. -/
theorem claimRewards_drains_exactly_witness :
    ∃ st2 evs, claimRewards scenarioCFinal 1 = .ok (st2, evs) ∧
      st2.playerRewards 1 = 0 ∧
      st2.raceBalance 1 = scenarioCFinal.raceBalance 1 + scenarioCFinal.playerRewards 1 ∧
      st2.contractRaceBalance = scenarioCFinal.contractRaceBalance - scenarioCFinal.playerRewards 1 ∧
      (∀ a, a ≠ 1 → st2.playerRewards a = scenarioCFinal.playerRewards a) ∧
      evs = [.RewardsClaimed 1 (scenarioCFinal.playerRewards 1)] :=
  (claimRewards_drains_exactly scenarioCFinal 1).1 (by decide) (by decide)

/-- C3: completing a session with the wrong caller fails with the
not-your-session error; a completed session can never be completed again;
any rejected completion reverts (state and events unchanged); and after a
successful completion every further completion of the same session fails. -/
theorem completeGame_rejects_recompletion (st : ContractState)
    (sender sessionId score distance vehiclesDodged timestamp : Nat) :
    ((st.gameSessions sessionId).player ≠ sender →
      completeGame st sender sessionId score distance vehiclesDodged timestamp =
        .error .NotYourSession) ∧
    ((st.gameSessions sessionId).completed = true →
      ∀ p, completeGame st sender sessionId score distance vehiclesDodged timestamp ≠ .ok p) ∧
    (∀ e, completeGame st sender sessionId score distance vehiclesDodged timestamp = .error e →
      runOp st (.completeGame sender sessionId score distance vehiclesDodged timestamp) = (st, [])) ∧
    (∀ p, completeGame st sender sessionId score distance vehiclesDodged timestamp = .ok p →
      ∀ sender2 score2 distance2 vehiclesDodged2 timestamp2 q,
        completeGame p.1 sender2 sessionId score2 distance2 vehiclesDodged2 timestamp2 ≠ .ok q) := by
  refine ⟨fun hp => ?_, fun hc p hok => ?_, fun e he => ?_, fun p hok sender2 s2 d2 v2 t2 q hok2 => ?_⟩
  · unfold completeGame
    rw [if_pos hp]
  · rw [completeGame_ok_iff] at hok
    rw [hok.2.1] at hc
    exact Bool.false_ne_true hc
  · simp [runOp, applyOp, he]
  · rw [completeGame_ok_iff] at hok
    rw [completeGame_ok_iff] at hok2
    have hses : (p.1.gameSessions sessionId).completed = true := by
      rw [hok.2.2, completeGameResult_gameSessions, Function.update_same]
    rw [hok2.2.1] at hses
    exact Bool.false_ne_true hses

/-- C3, witness: in the Scenario-C final state session 1 is completed and
owned by player 1, so a call by player 2 is rejected as not-your-session
and a rejected call leaves the state unchanged. -/
theorem completeGame_rejects_recompletion_witness :
    completeGame scenarioCFinal 2 1 5 5 5 0 = .error .NotYourSession ∧
    runOp scenarioCFinal (.completeGame 2 1 5 5 5 0) = (scenarioCFinal, []) := by
  have h := completeGame_rejects_recompletion scenarioCFinal 2 1 5 5 5 0
  have h1 := h.1 (by decide)
  exact ⟨h1, h.2.2.1 .NotYourSession h1⟩

/-- C10: the daily-challenge branch of `completeGame` is evaluated against
the calendar day of the completion-time timestamp: the bonus is granted
exactly when the score meets the completion day's target and the caller's
completion-day mark is unset, the completion-day mark is then set, and the
marks of every other day (in particular the session's start day, when the
session spans midnight) and of every other player are untouched. -/
theorem daily_bonus_uses_completion_day (st : ContractState)
    (sender sessionId score distance vehiclesDodged t1 : Nat)
    (hmode : (st.gameSessions sessionId).gameMode = .DAILY_CHALLENGE) :
    ∀ st2 evs,
      completeGame st sender sessionId score distance vehiclesDodged t1 = .ok (st2, evs) →
      ((dailyGrantCount sender (getCurrentDay t1) evs = 1) ↔
        ((st.dailyChallenges (getCurrentDay t1)).targetScore ≤ score ∧
          st.completedDailyChallenges sender (getCurrentDay t1) = false)) ∧
      (((st.dailyChallenges (getCurrentDay t1)).targetScore ≤ score ∧
          st.completedDailyChallenges sender (getCurrentDay t1) = false) →
        st2.completedDailyChallenges sender (getCurrentDay t1) = true ∧
        st2.playerRewards sender = st.playerRewards sender +
          (sessionSubtotal st sessionId score distance vehiclesDodged +
            (st.dailyChallenges (getCurrentDay t1)).rewardAmount)) ∧
      (∀ d0, d0 ≠ getCurrentDay t1 →
        st2.completedDailyChallenges sender d0 = st.completedDailyChallenges sender d0) ∧
      (∀ p d0, p ≠ sender →
        st2.completedDailyChallenges p d0 = st.completedDailyChallenges p d0) := by
  intro st2 evs hok
  rw [completeGame_ok_iff] at hok
  obtain ⟨hpl, hcm, hpair⟩ := hok
  have hst2 : st2 = (completeGameResult st sender sessionId score distance vehiclesDodged t1).1 :=
    congrArg Prod.fst hpair
  have hevs : evs = (completeGameResult st sender sessionId score distance vehiclesDodged t1).2 :=
    congrArg Prod.snd hpair
  have hgr : dailyGrantHappens st sender sessionId score t1 ↔
      ((st.dailyChallenges (getCurrentDay t1)).targetScore ≤ score ∧
        st.completedDailyChallenges sender (getCurrentDay t1) = false) := by
    unfold dailyGrantHappens
    simp [hmode]
  refine ⟨?_, fun hcond => ⟨?_, ?_⟩, fun d0 hd0 => ?_, fun p d0 hp => ?_⟩
  · rw [hevs, completeGameResult_events]
    by_cases hg : dailyGrantHappens st sender sessionId score t1
    · simp only [hg, if_pos, List.cons_append, List.nil_append]
      simp [dailyGrantCount, hgr.mp hg]
    · simp only [hg, if_neg, List.nil_append]
      constructor
      · intro hcount
        exact absurd hcount (by simp [dailyGrantCount])
      · intro hcond
        exact absurd (hgr.mpr hcond) hg
  · rw [hst2, completeGameResult_flags]
    rw [if_pos ⟨hgr.mpr hcond, rfl, rfl⟩]
  · rw [hst2, completeGameResult_playerRewards, Function.update_same]
    unfold completeGameRewards
    rw [hmode]
    simp only [if_pos (hgr.mpr hcond)]
  · rw [hst2, completeGameResult_flags]
    rw [if_neg (by tauto)]
  · rw [hst2, completeGameResult_flags]
    rw [if_neg (by tauto)]

/-- C10, witness: a DailyChallenge session started on day 0 and completed
at timestamp 86400 (day 1) sets the day-1 mark and leaves day 0 untouched. -/
theorem daily_bonus_uses_completion_day_witness :
    (completeGameResult dailyPendingState 1 1 700 0 0 86400).1.completedDailyChallenges 1 1 = true ∧
    (completeGameResult dailyPendingState 1 1 700 0 0 86400).1.completedDailyChallenges 1 0 =
      dailyPendingState.completedDailyChallenges 1 0 := by
  have h := daily_bonus_uses_completion_day dailyPendingState 1 1 700 0 0 86400 (by decide)
    (completeGameResult dailyPendingState 1 1 700 0 0 86400).1
    (completeGameResult dailyPendingState 1 1 700 0 0 86400).2 rfl
  exact ⟨(h.2.1 (by decide)).1, h.2.2.1 0 (by decide)⟩


/-- The fee-handling block only touches USDC bookkeeping and the prize
pool. -/
theorem startGameFee_inv {st st1 : ContractState} {sender : Nat}
    {gameMode : GameMode} {timestamp : Nat}
    (h : startGameFee st sender gameMode timestamp = .ok st1) :
    st1.playerRewards = st.playerRewards ∧
    st1.completedDailyChallenges = st.completedDailyChallenges := by
  cases gameMode with
  | RANKED =>
    simp only [startGameFee] at h
    split at h
    · exact absurd h (by simp)
    next st2 heq =>
      obtain ⟨-, -, hpr, -, hcd, -⟩ := usdcTransferFrom_preserves heq
      simp only [Except.ok.injEq] at h
      subst h
      exact ⟨hpr, hcd⟩
  | DAILY_CHALLENGE =>
    simp only [startGameFee] at h
    by_cases h1 : (st.dailyChallenges (getCurrentDay timestamp)).active = true
    · rw [if_neg (by simp [h1])] at h
      by_cases h2 : st.completedDailyChallenges sender (getCurrentDay timestamp) = true
      · rw [if_pos h2] at h
        exact absurd h (by simp)
      · rw [if_neg h2] at h
        simp only [Except.ok.injEq] at h
        subst h
        exact ⟨rfl, rfl⟩
    · rw [if_pos (by simp [h1])] at h
      exact absurd h (by simp)
  | PRACTICE =>
    simp only [startGameFee, Except.ok.injEq] at h
    subst h
    exact ⟨rfl, rfl⟩

/-- A successful mint touches neither the reward ledger nor the
daily-completion marks, and emits no reward events. -/
theorem mintBike_ok_inv {st : ContractState} {sender : Nat} {ty : BikeType}
    {bikeName : String} {timestamp : Nat} {p : ContractState × List Event}
    (h : mintBike st sender ty bikeName timestamp = .ok p) :
    p.1.playerRewards = st.playerRewards ∧
    p.1.completedDailyChallenges = st.completedDailyChallenges ∧
    claimedOf p.2 = 0 ∧ computedOf p.2 = 0 ∧
    (∀ q d, dailyGrantCount q d p.2 = 0) := by
  unfold mintBike at h
  split at h
  · exact absurd h (by simp)
  split at h
  · exact absurd h (by simp)
  next st1 heq =>
    split at h
    · exact absurd h (by simp)
    obtain ⟨-, -, hpr, -, hcd, -⟩ := usdcTransferFrom_preserves heq
    simp only [Except.ok.injEq] at h
    subst h
    exact ⟨hpr, hcd, rfl, rfl, fun q d => rfl⟩

/-- A successful session start touches neither the reward ledger nor the
daily-completion marks, and emits no reward events. -/
theorem startGame_ok_inv {st : ContractState} {sender bikeTokenId : Nat}
    {gameMode : GameMode} {timestamp : Nat} {p : ContractState × List Event}
    (h : startGame st sender bikeTokenId gameMode timestamp = .ok p) :
    p.1.playerRewards = st.playerRewards ∧
    p.1.completedDailyChallenges = st.completedDailyChallenges ∧
    claimedOf p.2 = 0 ∧ computedOf p.2 = 0 ∧
    (∀ q d, dailyGrantCount q d p.2 = 0) := by
  unfold startGame at h
  split at h
  · exact absurd h (by simp)
  split at h
  · exact absurd h (by simp)
  split at h
  · exact absurd h (by simp)
  split at h
  · exact absurd h (by simp)
  next st1 hfee =>
    obtain ⟨hpr, hcd⟩ := startGameFee_inv hfee
    simp only [Except.ok.injEq] at h
    subst h
    exact ⟨hpr, hcd, rfl, rfl, fun q d => rfl⟩

/-- A successful claim: positivity, the exact ledger zeroing, and the single
`RewardsClaimed` event. -/
theorem claimRewards_ok_inv {st : ContractState} {sender : Nat}
    {p : ContractState × List Event}
    (h : claimRewards st sender = .ok p) :
    0 < st.playerRewards sender ∧
    p.1.playerRewards = Function.update st.playerRewards sender 0 ∧
    p.1.completedDailyChallenges = st.completedDailyChallenges ∧
    p.2 = [.RewardsClaimed sender (st.playerRewards sender)] := by
  by_cases h1 : st.playerRewards sender = 0
  · simp only [claimRewards] at h
    rw [if_pos h1] at h
    exact absurd h (by simp)
  by_cases h2 : st.contractRaceBalance < st.playerRewards sender
  · simp only [claimRewards] at h
    rw [if_neg h1, if_pos h2] at h
    exact absurd h (by simp)
  · simp only [claimRewards] at h
    rw [if_neg h1, if_neg h2] at h
    simp only [Except.ok.injEq] at h
    subst h
    exact ⟨by omega, rfl, rfl, rfl⟩

/-- A successful credit transfer: its preconditions, the exact double
update, and the single `TokensTransferred` event. -/
theorem transferTokens_ok_inv {st : ContractState} {sender toAddr amount : Nat}
    {p : ContractState × List Event}
    (h : transferTokensToPlayer st sender toAddr amount = .ok p) :
    amount ≤ st.playerRewards sender ∧ toAddr ≠ sender ∧ toAddr ≠ 0 ∧
    p.1.playerRewards =
      Function.update (Function.update st.playerRewards sender
        (st.playerRewards sender - amount)) toAddr
        (st.playerRewards toAddr + amount) ∧
    p.1.completedDailyChallenges = st.completedDailyChallenges ∧
    p.2 = [.TokensTransferred sender toAddr amount] := by
  by_cases h1 : st.playerRewards sender < amount
  · simp only [transferTokensToPlayer] at h
    rw [if_pos h1] at h
    exact absurd h (by simp)
  by_cases h2 : toAddr = sender
  · simp only [transferTokensToPlayer] at h
    rw [if_neg h1, if_pos h2] at h
    exact absurd h (by simp)
  by_cases h3 : toAddr = 0
  · simp only [transferTokensToPlayer] at h
    rw [if_neg h1, if_neg h2, if_pos h3] at h
    exact absurd h (by simp)
  · simp only [transferTokensToPlayer] at h
    rw [if_neg h1, if_neg h2, if_neg h3] at h
    simp only [Except.ok.injEq] at h
    subst h
    refine ⟨by omega, h2, h3, ?_, rfl, rfl⟩
    rw [Function.update_noteq h2]

/-- The rollover operation touches neither the reward ledger nor the
daily-completion marks, and emits no reward events. -/
theorem updateDailyChallenge_ok_inv {st : ContractState} {timestamp : Nat}
    {p : ContractState × List Event}
    (h : updateDailyChallenge st timestamp = .ok p) :
    p.1.playerRewards = st.playerRewards ∧
    p.1.completedDailyChallenges = st.completedDailyChallenges ∧
    claimedOf p.2 = 0 ∧ computedOf p.2 = 0 ∧
    (∀ q d, dailyGrantCount q d p.2 = 0) := by
  by_cases h1 : st.currentChallengeDate < getCurrentDay timestamp
  · simp only [updateDailyChallenge] at h
    rw [if_pos h1] at h
    simp only [Except.ok.injEq] at h
    subst h
    exact ⟨rfl, rfl, rfl, rfl, fun q d => rfl⟩
  · simp only [updateDailyChallenge] at h
    rw [if_neg h1] at h
    simp only [Except.ok.injEq] at h
    subst h
    exact ⟨rfl, rfl, rfl, rfl, fun q d => rfl⟩

/-- `claimedOf` is additive over append. -/
theorem claimedOf_append (l1 l2 : List Event) :
    claimedOf (l1 ++ l2) = claimedOf l1 + claimedOf l2 := by
  induction l1 with
  | nil => simp [claimedOf]
  | cons e l ih => cases e <;> simp [claimedOf, ih, Nat.add_assoc]

/-- `computedOf` is additive over append. -/
theorem computedOf_append (l1 l2 : List Event) :
    computedOf (l1 ++ l2) = computedOf l1 + computedOf l2 := by
  induction l1 with
  | nil => simp [computedOf]
  | cons e l ih => cases e <;> simp [computedOf, ih, Nat.add_assoc]

/-- `dailyGrantCount` is additive over append. -/
theorem dailyGrantCount_append (p d : Nat) (l1 l2 : List Event) :
    dailyGrantCount p d (l1 ++ l2) =
      dailyGrantCount p d l1 + dailyGrantCount p d l2 := by
  induction l1 with
  | nil => simp [dailyGrantCount]
  | cons e l ih => cases e <;> simp [dailyGrantCount, ih, Nat.add_assoc]

/-- Adding `R` to one member's entry raises the ledger sum by `R`. -/
theorem ledgerSum_update_add (f : Nat → Nat) (A : Finset Nat) (a : Nat)
    (ha : a ∈ A) (R : Nat) :
    A.sum (Function.update f a (f a + R)) = A.sum f + R := by
  rw [Finset.sum_update_of_mem ha]
  rw [Finset.sum_eq_sum_diff_singleton_add ha f]
  omega

/-- Zeroing one member's entry lowers the ledger sum by that entry. -/
theorem ledgerSum_update_zero (f : Nat → Nat) (A : Finset Nat) (a : Nat)
    (ha : a ∈ A) :
    A.sum (Function.update f a 0) + f a = A.sum f := by
  rw [Finset.sum_update_of_mem ha]
  rw [Finset.sum_eq_sum_diff_singleton_add ha f]
  omega

/-- A debit/credit pair between two distinct members preserves the ledger
sum. -/
theorem ledgerSum_transfer (f : Nat → Nat) (A : Finset Nat) (a b : Nat)
    (ha : a ∈ A) (hb : b ∈ A) (hba : b ≠ a) (amt : Nat) (hamt : amt ≤ f a) :
    A.sum (Function.update (Function.update f a (f a - amt)) b
      (f b + amt)) = A.sum f := by
  have hgb : Function.update f a (f a - amt) b = f b :=
    Function.update_noteq hba _ _
  calc A.sum (Function.update (Function.update f a (f a - amt)) b (f b + amt))
      = A.sum (Function.update (Function.update f a (f a - amt)) b
          (Function.update f a (f a - amt) b + amt)) := by rw [hgb]
    _ = A.sum (Function.update f a (f a - amt)) + amt :=
        ledgerSum_update_add _ A b hb amt
    _ = A.sum f := by
        rw [Finset.sum_update_of_mem ha, Finset.sum_eq_sum_diff_singleton_add ha f]
        omega

/-- Event accounting of a successful completion: nothing claimed, the
computed reward reported once, and a daily grant reported exactly when the
daily branch granted for that player and day. -/
theorem completeGameResult_event_counts (st : ContractState)
    (sender sessionId score distance vehiclesDodged timestamp p d : Nat) :
    claimedOf (completeGameResult st sender sessionId score distance vehiclesDodged timestamp).2 = 0 ∧
    computedOf (completeGameResult st sender sessionId score distance vehiclesDodged timestamp).2 =
      completeGameRewards st sender sessionId score distance vehiclesDodged timestamp ∧
    dailyGrantCount p d (completeGameResult st sender sessionId score distance vehiclesDodged timestamp).2 =
      (if dailyGrantHappens st sender sessionId score timestamp ∧
          sender = p ∧ getCurrentDay timestamp = d then 1 else 0) := by
  rw [completeGameResult_events]
  by_cases hg : dailyGrantHappens st sender sessionId score timestamp
  · simp only [hg, if_true, List.cons_append, List.nil_append, true_and]
    refine ⟨by simp [claimedOf], by simp [computedOf], ?_⟩
    by_cases hpd : sender = p ∧ getCurrentDay timestamp = d
    · simp [dailyGrantCount, hpd]
    · simp [dailyGrantCount, hpd]
  · simp only [hg, if_false, List.nil_append, false_and]
    exact ⟨by simp [claimedOf], by simp [computedOf], by simp [dailyGrantCount]⟩

/-- One transaction preserves the conservation equation: the ledger-sum
change over a set covering the touched addresses is the computed rewards
minus the claimed amount of its events. -/
theorem runOp_conservation (st : ContractState) (op : Op) (A : Finset Nat)
    (hA : ∀ x ∈ op.touches, x ∈ A) :
    ledgerSum (runOp st op).1 A + claimedOf (runOp st op).2 =
      ledgerSum st A + computedOf (runOp st op).2 := by
  cases op with
  | mintBike sender ty n t =>
    simp only [runOp, applyOp]
    cases hm : mintBike st sender ty n t with
    | error e => simp [claimedOf, computedOf]
    | ok p =>
      obtain ⟨hpr, -, hc, hcm, -⟩ := mintBike_ok_inv hm
      simp [ledgerSum, hpr, hc, hcm]
  | startGame sender bike mode t =>
    simp only [runOp, applyOp]
    cases hm : startGame st sender bike mode t with
    | error e => simp [claimedOf, computedOf]
    | ok p =>
      obtain ⟨hpr, -, hc, hcm, -⟩ := startGame_ok_inv hm
      simp [ledgerSum, hpr, hc, hcm]
  | updateDailyChallenge t =>
    simp only [runOp, applyOp]
    cases hm : updateDailyChallenge st t with
    | error e => simp [claimedOf, computedOf]
    | ok p =>
      obtain ⟨hpr, -, hc, hcm, -⟩ := updateDailyChallenge_ok_inv hm
      simp [ledgerSum, hpr, hc, hcm]
  | completeGame sender sid score dist v t =>
    simp only [runOp, applyOp]
    cases hm : completeGame st sender sid score dist v t with
    | error e => simp [claimedOf, computedOf]
    | ok p =>
      have hmem : sender ∈ A := hA sender (by simp [Op.touches])
      rw [completeGame_ok_iff] at hm
      obtain ⟨-, -, hp⟩ := hm
      subst hp
      obtain ⟨hc, hcm, -⟩ :=
        completeGameResult_event_counts st sender sid score dist v t 0 0
      rw [hc, hcm]
      simp only [ledgerSum]
      rw [completeGameResult_playerRewards,
        ledgerSum_update_add _ A sender hmem]
      omega
  | claimRewards sender =>
    simp only [runOp, applyOp]
    cases hm : claimRewards st sender with
    | error e => simp [claimedOf, computedOf]
    | ok p =>
      have hmem : sender ∈ A := hA sender (by simp [Op.touches])
      obtain ⟨hpos, hpr, -, hevs⟩ := claimRewards_ok_inv hm
      rw [hevs]
      simp only [ledgerSum, claimedOf, computedOf]
      rw [hpr]
      have hz := ledgerSum_update_zero st.playerRewards A sender hmem
      show A.sum (Function.update st.playerRewards sender 0) +
          (st.playerRewards sender + 0) = A.sum st.playerRewards + 0
      omega
  | transferTokensToPlayer sender toAddr amount =>
    simp only [runOp, applyOp]
    cases hm : transferTokensToPlayer st sender toAddr amount with
    | error e => simp [claimedOf, computedOf]
    | ok p =>
      have hs : sender ∈ A := hA sender (by simp [Op.touches])
      have ht : toAddr ∈ A := hA toAddr (by simp [Op.touches])
      obtain ⟨hle, hneq, -, hpr, -, hevs⟩ := transferTokens_ok_inv hm
      rw [hevs]
      simp only [ledgerSum, claimedOf, computedOf]
      rw [hpr, ledgerSum_transfer st.playerRewards A sender toAddr hs ht hneq amount hle]

/-- Conservation over an arbitrary trace, relative to the starting ledger. -/
theorem runTrace_conservation (ops : List Op) : ∀ (st : ContractState)
    (A : Finset Nat), (∀ op ∈ ops, ∀ x ∈ Op.touches op, x ∈ A) →
    ledgerSum (runTrace st ops).1 A + claimedOf (runTrace st ops).2 =
      ledgerSum st A + computedOf (runTrace st ops).2 := by
  induction ops with
  | nil => intro st A _; simp [runTrace, claimedOf, computedOf]
  | cons op ops ih =>
    intro st A hA
    have h1 := runOp_conservation st op A (hA op (List.mem_cons_self op ops))
    have h2 := ih (runOp st op).1 A (fun o ho => hA o (List.mem_cons_of_mem _ ho))
    simp only [runTrace]
    rw [claimedOf_append, computedOf_append]
    omega

/-- No transaction ever clears a set daily-completion mark. -/
theorem runOp_flag_mono (st : ContractState) (op : Op) (p d : Nat)
    (h : st.completedDailyChallenges p d = true) :
    (runOp st op).1.completedDailyChallenges p d = true := by
  cases op with
  | mintBike sender ty n t =>
    simp only [runOp, applyOp]
    cases hm : mintBike st sender ty n t with
    | error e => exact h
    | ok q => rw [(mintBike_ok_inv hm).2.1]; exact h
  | startGame sender bike mode t =>
    simp only [runOp, applyOp]
    cases hm : startGame st sender bike mode t with
    | error e => exact h
    | ok q => rw [(startGame_ok_inv hm).2.1]; exact h
  | updateDailyChallenge t =>
    simp only [runOp, applyOp]
    cases hm : updateDailyChallenge st t with
    | error e => exact h
    | ok q => rw [(updateDailyChallenge_ok_inv hm).2.1]; exact h
  | claimRewards sender =>
    simp only [runOp, applyOp]
    cases hm : claimRewards st sender with
    | error e => exact h
    | ok q => rw [(claimRewards_ok_inv hm).2.2.1]; exact h
  | transferTokensToPlayer sender toAddr amount =>
    simp only [runOp, applyOp]
    cases hm : transferTokensToPlayer st sender toAddr amount with
    | error e => exact h
    | ok q => rw [(transferTokens_ok_inv hm).2.2.2.2.1]; exact h
  | completeGame sender sid score dist v t =>
    simp only [runOp, applyOp]
    cases hm : completeGame st sender sid score dist v t with
    | error e => exact h
    | ok q =>
      rw [completeGame_ok_iff] at hm
      obtain ⟨-, -, hq⟩ := hm
      subst hq
      rw [completeGameResult_flags]
      split_ifs with hcond
      · rfl
      · exact h

/-- Per-transaction daily-grant accounting: at most one grant, none when
the mark is already set, and a grant sets the mark. -/
theorem runOp_grant_facts (st : ContractState) (op : Op) (p d : Nat) :
    dailyGrantCount p d (runOp st op).2 ≤ 1 ∧
    (st.completedDailyChallenges p d = true →
      dailyGrantCount p d (runOp st op).2 = 0) ∧
    (dailyGrantCount p d (runOp st op).2 = 1 →
      (runOp st op).1.completedDailyChallenges p d = true) := by
  cases op with
  | mintBike sender ty n t =>
    simp only [runOp, applyOp]
    cases hm : mintBike st sender ty n t with
    | error e => simp [dailyGrantCount]
    | ok q =>
      have h0 := (mintBike_ok_inv hm).2.2.2.2 p d
      simp [h0]
  | startGame sender bike mode t =>
    simp only [runOp, applyOp]
    cases hm : startGame st sender bike mode t with
    | error e => simp [dailyGrantCount]
    | ok q =>
      have h0 := (startGame_ok_inv hm).2.2.2.2 p d
      simp [h0]
  | updateDailyChallenge t =>
    simp only [runOp, applyOp]
    cases hm : updateDailyChallenge st t with
    | error e => simp [dailyGrantCount]
    | ok q =>
      have h0 := (updateDailyChallenge_ok_inv hm).2.2.2.2 p d
      simp [h0]
  | claimRewards sender =>
    simp only [runOp, applyOp]
    cases hm : claimRewards st sender with
    | error e => simp [dailyGrantCount]
    | ok q =>
      have h0 := (claimRewards_ok_inv hm).2.2.2
      simp [h0, dailyGrantCount]
  | transferTokensToPlayer sender toAddr amount =>
    simp only [runOp, applyOp]
    cases hm : transferTokensToPlayer st sender toAddr amount with
    | error e => simp [dailyGrantCount]
    | ok q =>
      have h0 := (transferTokens_ok_inv hm).2.2.2.2.2
      simp [h0, dailyGrantCount]
  | completeGame sender sid score dist v t =>
    simp only [runOp, applyOp]
    cases hm : completeGame st sender sid score dist v t with
    | error e => simp [dailyGrantCount]
    | ok q =>
      rw [completeGame_ok_iff] at hm
      obtain ⟨-, -, hq⟩ := hm
      subst hq
      obtain ⟨-, -, hcnt⟩ :=
        completeGameResult_event_counts st sender sid score dist v t p d
      rw [hcnt]
      by_cases hcond : dailyGrantHappens st sender sid score t ∧
          sender = p ∧ getCurrentDay t = d
      · rw [if_pos hcond]
        refine ⟨le_refl 1, ?_, ?_⟩
        · intro hflag
          obtain ⟨hg, hsp, htd⟩ := hcond
          have hflag0 := hg.2.2
          rw [hsp, htd] at hflag0
          rw [hflag] at hflag0
          exact absurd hflag0 (by simp)
        · intro _
          rw [completeGameResult_flags]
          rw [if_pos ⟨hcond.1, hcond.2.1.symm, hcond.2.2.symm⟩]
      · rw [if_neg hcond]
        exact ⟨by omega, fun _ => rfl, fun hx => absurd hx (by omega)⟩

/-- A trace starting with the mark already set never grants again. -/
theorem runTrace_grant_zero (ops : List Op) : ∀ (st : ContractState) (p d : Nat),
    st.completedDailyChallenges p d = true →
    dailyGrantCount p d (runTrace st ops).2 = 0 := by
  induction ops with
  | nil => intro st p d _; simp [runTrace, dailyGrantCount]
  | cons op ops ih =>
    intro st p d h
    simp only [runTrace]
    rw [dailyGrantCount_append]
    rw [(runOp_grant_facts st op p d).2.1 h]
    rw [ih (runOp st op).1 p d (runOp_flag_mono st op p d h)]

/-- Over any trace, the daily bonus is granted at most once per player and
day. -/
theorem runTrace_grant_le_one (ops : List Op) : ∀ (st : ContractState) (p d : Nat),
    dailyGrantCount p d (runTrace st ops).2 ≤ 1 := by
  induction ops with
  | nil => intro st p d; simp [runTrace, dailyGrantCount]
  | cons op ops ih =>
    intro st p d
    simp only [runTrace]
    rw [dailyGrantCount_append]
    have h1 := runOp_grant_facts st op p d
    rcases Nat.le_one_iff_eq_zero_or_eq_one.mp h1.1 with h0 | hone
    · rw [h0]
      simpa using ih (runOp st op).1 p d
    · rw [hone]
      rw [runTrace_grant_zero ops (runOp st op).1 p d (h1.2.2 hone)]

/-- C5: over every operation sequence a player's daily bonus for a given
day is granted at most once; once the mark is set it is never granted
again; starting a DailyChallenge session is rejected when the caller has
already completed the current day's challenge; and whenever a completion
grants the bonus, the pre-state mark was unset and the grant sets it in
the same step. -/
theorem daily_challenge_single_grant (st : ContractState) (ops : List Op)
    (p d : Nat) :
    dailyGrantCount p d (runTrace st ops).2 ≤ 1 ∧
    (st.completedDailyChallenges p d = true →
      dailyGrantCount p d (runTrace st ops).2 = 0) ∧
    (∀ sender bikeTokenId t r,
      st.completedDailyChallenges sender (getCurrentDay t) = true →
      startGame st sender bikeTokenId .DAILY_CHALLENGE t ≠ .ok r) ∧
    (∀ sender sessionId score distance vehiclesDodged t q,
      completeGame st sender sessionId score distance vehiclesDodged t = .ok q →
      dailyGrantCount sender (getCurrentDay t) q.2 = 1 →
      st.completedDailyChallenges sender (getCurrentDay t) = false ∧
      q.1.completedDailyChallenges sender (getCurrentDay t) = true) := by
  refine ⟨runTrace_grant_le_one ops st p d, runTrace_grant_zero ops st p d, ?_, ?_⟩
  · intro sender bike t r hflag hok
    have hfee : ∀ s1, startGameFee st sender .DAILY_CHALLENGE t ≠ .ok s1 := by
      intro s1 hfeeok
      simp only [startGameFee] at hfeeok
      by_cases h1 : (st.dailyChallenges (getCurrentDay t)).active = true
      · rw [if_neg (by simp [h1]), if_pos hflag] at hfeeok
        exact absurd hfeeok (by simp)
      · rw [if_pos (by simp [h1])] at hfeeok
        exact absurd hfeeok (by simp)
    unfold startGame at hok
    split at hok
    · exact absurd hok (by simp)
    split at hok
    · exact absurd hok (by simp)
    split at hok
    · exact absurd hok (by simp)
    split at hok
    · exact absurd hok (by simp)
    next s1 hfeeok => exact hfee s1 hfeeok
  · intro sender sid score dist v t q hok hcount
    rw [completeGame_ok_iff] at hok
    obtain ⟨-, -, hq⟩ := hok
    subst hq
    obtain ⟨-, -, hcnt⟩ := completeGameResult_event_counts st sender sid score
      dist v t sender (getCurrentDay t)
    rw [hcnt] at hcount
    by_cases hcond : dailyGrantHappens st sender sid score t ∧
        sender = sender ∧ getCurrentDay t = getCurrentDay t
    · refine ⟨hcond.1.2.2, ?_⟩
      rw [completeGameResult_flags]
      rw [if_pos ⟨hcond.1, rfl, rfl⟩]
    · rw [if_neg hcond] at hcount
      exact absurd hcount (by omega)

/-- C5, witness: after a qualifying day-0 completion the mark is set, and a
second DailyChallenge start/completion pair on day 0 grants nothing. -/
theorem daily_challenge_single_grant_witness :
    dailyDoneState.completedDailyChallenges 1 0 = true ∧
    dailyGrantCount 1 0 (runTrace dailyDoneState
      [.startGame 1 0 .DAILY_CHALLENGE 0, .completeGame 1 2 900 0 0 0]).2 = 0 :=
  ⟨by decide, (daily_challenge_single_grant dailyDoneState
      [.startGame 1 0 .DAILY_CHALLENGE 0, .completeGame 1 2 900 0 0 0] 1 0).2.1
      (by decide)⟩

/-- C4: starting from a fresh deployment, for every operation sequence the
sum of all reward-ledger entries (over any address set covering the
trace's ledger-touching addresses) plus everything paid out by claims
equals everything ever computed by completions; entries are naturals so
they never go negative; and a peer-to-peer credit transfer succeeds only
with a sufficient sender balance, a distinct receiver and a non-null
receiver, debiting and crediting by exactly the same amount. -/
theorem ledger_conservation (t0 : Nat) (bal allow : Nat → Nat) (rf : Nat)
    (ops : List Op) (A : Finset Nat)
    (hA : ∀ op ∈ ops, ∀ x ∈ Op.touches op, x ∈ A) :
    ledgerSum (runTrace (initialState t0 bal allow rf) ops).1 A +
      claimedOf (runTrace (initialState t0 bal allow rf) ops).2 =
      computedOf (runTrace (initialState t0 bal allow rf) ops).2 ∧
    (∀ st sender toAddr amount q,
      transferTokensToPlayer st sender toAddr amount = .ok q →
      amount ≤ st.playerRewards sender ∧ toAddr ≠ sender ∧ toAddr ≠ 0 ∧
      q.1.playerRewards sender = st.playerRewards sender - amount ∧
      q.1.playerRewards toAddr = st.playerRewards toAddr + amount ∧
      (∀ x, x ≠ sender → x ≠ toAddr →
        q.1.playerRewards x = st.playerRewards x)) := by
  constructor
  · have h := runTrace_conservation ops (initialState t0 bal allow rf) A hA
    have hz : ledgerSum (initialState t0 bal allow rf) A = 0 := by
      simp [ledgerSum, initialState, createDailyChallenge]
    rw [hz] at h
    omega
  · intro st sender toAddr amount q hok
    obtain ⟨hle, hself, hzero, hpr, -, -⟩ := transferTokens_ok_inv hok
    refine ⟨hle, hself, hzero, ?_, ?_, ?_⟩
    · rw [hpr, Function.update_noteq (Ne.symm hself), Function.update_same]
    · rw [hpr, Function.update_same]
    · intro x hxs hxt
      rw [hpr, Function.update_noteq hxt, Function.update_noteq hxs]

/-- C4, witness: a concrete trace with a completion, a credit transfer and
two claims over the address set containing players 1 and 2. -/
theorem ledger_conservation_witness :
    ledgerSum (runTrace (initialState 0 demoUsdc demoUsdc (10 ^ 24))
        conservationDemoOps).1 ({1, 2} : Finset Nat) +
      claimedOf (runTrace (initialState 0 demoUsdc demoUsdc (10 ^ 24))
        conservationDemoOps).2 =
      computedOf (runTrace (initialState 0 demoUsdc demoUsdc (10 ^ 24))
        conservationDemoOps).2 :=
  (ledger_conservation 0 demoUsdc demoUsdc (10 ^ 24) conservationDemoOps
    {1, 2} (by decide)).1

/-- C9, witness: with 3 minted tokens all owned by player 1 — including
token 0 — the fallback scan still omits token 0. -/
theorem fallback_scan_never_contains_token_zero_witness :
    (fun i => if i ≤ 2 then some 1 else none) 0 = some 1 ∧
    0 ∉ getPlayerBikesFallbackScan 3 (fun i => if i ≤ 2 then some 1 else none) 1 :=
  ⟨rfl, fallback_scan_never_contains_token_zero.1 3
    (fun i => if i ≤ 2 then some 1 else none) 1 rfl⟩
